import Mathlib

/-!
Shallow embedding of `src/src/include/timer.h` (OpenImageIO simple timer):
the `Timer` stopwatch class and the `ScopedTimer` guard, on the POSIX
build branch (`value_t = struct timeval`, clock differences in seconds
computed through `fabs`).

The platform clock is an external collaborator: each operation of the
source that calls `now()` takes the instant that call would return as an
explicit parameter.  Seconds (`double` in the source) are modelled as
exact rationals.  Queries of the source that are `const` member functions
are modelled as functions returning only a value, so their freedom from
mutation is by construction.
-/

/-- POSIX `struct timeval`: whole seconds and microseconds, both signed
integer fields. -/
structure value_t where
  tv_sec : Int
  tv_usec : Int
deriving DecidableEq, Repr

/-- The `Timer` class state: its three private data members
`m_ticking`, `m_starttime`, `m_elapsed`. -/
structure Timer where
  m_ticking : Bool
  m_starttime : value_t
  m_elapsed : ℚ
deriving DecidableEq, Repr

namespace Timer

/-- `Timer::diff(then, now)` on the POSIX branch:
`fabs((now.tv_sec - then.tv_sec) + (now.tv_usec - then.tv_usec) / 1e6)`. -/
def diff (th n : value_t) : ℚ :=
  |((n.tv_sec - th.tv_sec : Int) : ℚ) +
    ((n.tv_usec - th.tv_usec : Int) : ℚ) / 1000000|

/-- `Timer::start()`: if not ticking, capture the current instant into
`m_starttime` and set `m_ticking`; otherwise do nothing (the clock is not
even read). `n` is the value `now()` returns when it is read. -/
def start (t : Timer) (n : value_t) : Timer :=
  if t.m_ticking then t
  else { t with m_starttime := n, m_ticking := true }

/-- `Timer::stop()`: if ticking, read `now()`, add `diff(n, m_starttime)`
to `m_elapsed` and clear `m_ticking`; otherwise do nothing. -/
def stop (t : Timer) (n : value_t) : Timer :=
  if t.m_ticking then
    { t with m_elapsed := t.m_elapsed + diff n t.m_starttime,
             m_ticking := false }
  else t

/-- `Timer::reset()`: set `m_elapsed = 0` and `m_ticking = false`
unconditionally. -/
def reset (t : Timer) : Timer :=
  { t with m_elapsed := 0, m_ticking := false }

/-- `Timer::time_since_start()`: if ticking, read `now()` and return
`diff(m_starttime, n)`; otherwise return `0`.  A `const` query. -/
def time_since_start (t : Timer) (n : value_t) : ℚ :=
  if t.m_ticking then diff t.m_starttime n else 0

/-- `Timer::operator()`: `m_elapsed + time_since_start()`.  A `const`
query. -/
def callOp (t : Timer) (n : value_t) : ℚ :=
  t.m_elapsed + t.time_since_start n

/-- The `Timer(bool startnow = true)` constructor: members are set to
`m_ticking = false`, `m_elapsed = 0`, `m_starttime` left unset (modelled
by an arbitrary junk instant `i0`); then `start()` runs when `startnow`
holds, reading the clock as `n`. -/
def construct (startnow : Bool) (n i0 : value_t) : Timer :=
  let t : Timer := ⟨false, i0, 0⟩
  if startnow then t.start n else t

end Timer

/-- The states a `Timer` object can be in during a program run: produced
by the constructor and closed under the four mutating member functions. -/
inductive Reachable : Timer → Prop
  | construct (startnow : Bool) (n i0 : value_t) :
      Reachable (Timer.construct startnow n i0)
  | start (t : Timer) (n : value_t) : Reachable t → Reachable (t.start n)
  | stop (t : Timer) (n : value_t) : Reachable t → Reachable (t.stop n)
  | reset (t : Timer) : Reachable t → Reachable t.reset

namespace ScopedTimer

/-- `ScopedTimer::start()`: `m_timer.start()`.  The guard holds a
reference to the timer, so its effect is modelled as a function on the
referenced `Timer` state. -/
def start (t : Timer) (n : value_t) : Timer :=
  Timer.start t n

/-- `ScopedTimer::stop()`: `m_timer.stop()`. -/
def stop (t : Timer) (n : value_t) : Timer :=
  Timer.stop t n

/-- `ScopedTimer::reset()`: `m_timer.reset()`. -/
def reset (t : Timer) : Timer :=
  Timer.reset t

/-- The `ScopedTimer(TIMER &t)` constructor: stores the reference and
calls `start()`. -/
def construct (t : Timer) (n : value_t) : Timer :=
  ScopedTimer.start t n

/-- The `~ScopedTimer()` destructor: calls `stop()`. -/
def destruct (t : Timer) (n : value_t) : Timer :=
  ScopedTimer.stop t n

end ScopedTimer

/-- Run a list of non-overlapping start/stop segments against a timer:
each pair `(s, e)` is a `start()` that reads the clock as `s` followed by
the matching `stop()` that reads it as `e`. -/
def runSegs (t : Timer) : List (value_t × value_t) → Timer
  | [] => t
  | (s, e) :: rest => runSegs ((t.start s).stop e) rest

theorem diff_nonneg (a b : value_t) : 0 ≤ Timer.diff a b :=
  abs_nonneg _

theorem elapsed_nonneg_of_reachable {t : Timer} (h : Reachable t) :
    0 ≤ t.m_elapsed := by
  induction h with
  | construct startnow n i0 =>
      cases startnow <;> simp [Timer.construct, Timer.start]
  | start t n _ ih =>
      unfold Timer.start
      split <;> simpa using ih
  | stop t n _ ih =>
      unfold Timer.stop
      split
      · exact add_nonneg ih (diff_nonneg _ _)
      · exact ih
  | reset t _ _ =>
      simp [Timer.reset]

theorem runSegs_elapsed (L : List (value_t × value_t)) (t : Timer)
    (h : t.m_ticking = false) :
    (runSegs t L).m_ticking = false ∧
      (runSegs t L).m_elapsed =
        t.m_elapsed + (L.map fun p => Timer.diff p.2 p.1).sum := by
  induction L generalizing t with
  | nil => simpa [runSegs] using h.symm ▸ rfl
  | cons p rest ih =>
      obtain ⟨s, e⟩ := p
      have hstep : ((t.start s).stop e).m_ticking = false ∧
          ((t.start s).stop e).m_elapsed =
            t.m_elapsed + Timer.diff e s := by
        simp [Timer.start, Timer.stop, h]
      obtain ⟨h1, h2⟩ := ih ((t.start s).stop e) hstep.1
      refine ⟨h1, ?_⟩
      simp only [runSegs]
      rw [h2, hstep.2]
      simp [add_assoc]

/-- C1: running any finite list of non-overlapping start/stop segments on
a stopwatch constructed with `startnow = false`, `elapsedTotal()` (the
`operator()` read) afterwards equals the sum over the segments of
`diff` applied to the instant read at the segment's `stop()` and the
instant captured at its `start()`. -/
theorem c1_elapsed_total_is_sum_of_segments
    (n0 i0 nq : value_t) (L : List (value_t × value_t)) :
    (runSegs (Timer.construct false n0 i0) L).callOp nq =
      (L.map fun p => Timer.diff p.2 p.1).sum := by
  have h0 : (Timer.construct false n0 i0).m_ticking = false := rfl
  obtain ⟨h1, h2⟩ := runSegs_elapsed L (Timer.construct false n0 i0) h0
  rw [Timer.callOp, Timer.time_since_start, h1, h2]
  simp [Timer.construct]

/-- C2: on every reachable state and every pair of instants (the later
reading may be numerically smaller than the earlier one), `operator()`
and `time_since_start()` report non-negative values, and `stop()` never
decreases `m_elapsed` (the committed delta is non-negative, since `diff`
is an absolute value). -/
theorem c2_no_negative_elapsed
    (t : Timer) (h : Reachable t) (n a b : value_t) :
    0 ≤ Timer.diff a b ∧ 0 ≤ t.callOp n ∧
      0 ≤ t.time_since_start n ∧ t.m_elapsed ≤ (t.stop n).m_elapsed := by
  have htss : 0 ≤ t.time_since_start n := by
    unfold Timer.time_since_start
    split
    · exact diff_nonneg _ _
    · exact le_refl 0
  refine ⟨diff_nonneg a b, ?_, htss, ?_⟩
  · exact add_nonneg (elapsed_nonneg_of_reachable h) htss
  · unfold Timer.stop
    split
    · simpa using add_nonneg (le_refl (0:ℚ)) (diff_nonneg n t.m_starttime)
    · exact le_refl _

theorem c2_no_negative_elapsed_witness :
    0 ≤ Timer.diff ⟨3, 500⟩ ⟨1, 2⟩ ∧
      0 ≤ (Timer.construct false ⟨0, 0⟩ ⟨0, 0⟩).callOp ⟨7, 0⟩ ∧
      0 ≤ (Timer.construct false ⟨0, 0⟩ ⟨0, 0⟩).time_since_start ⟨7, 0⟩ ∧
      (Timer.construct false ⟨0, 0⟩ ⟨0, 0⟩).m_elapsed ≤
        ((Timer.construct false ⟨0, 0⟩ ⟨0, 0⟩).stop ⟨7, 0⟩).m_elapsed :=
  c2_no_negative_elapsed (Timer.construct false ⟨0, 0⟩ ⟨0, 0⟩)
    (Reachable.construct false ⟨0, 0⟩ ⟨0, 0⟩) ⟨7, 0⟩ ⟨3, 500⟩ ⟨1, 2⟩

/-- C3: `reset()` sets `m_elapsed = 0` and `m_ticking = false` on every
prior state, so `operator()` immediately afterwards returns exactly 0;
in particular `construct(false); start(); stop(); reset()` yields an
`operator()` reading of 0. -/
theorem c3_reset_zeroes
    (t : Timer) (n n0 i0 s e nq : value_t) :
    t.reset.m_elapsed = 0 ∧ t.reset.m_ticking = false ∧
      t.reset.callOp n = 0 ∧
      ((((Timer.construct false n0 i0).start s).stop e).reset).callOp nq
        = 0 := by
    refine ⟨rfl, rfl, ?_, ?_⟩ <;>
      simp [Timer.reset, Timer.callOp, Timer.time_since_start]

/-- C4: `start()` on a stopwatch that is already ticking leaves the whole
state (all three members, the start instant included) unchanged. -/
theorem c4_start_while_ticking_noop
    (t : Timer) (h : t.m_ticking = true) (n : value_t) :
    t.start n = t := by
  unfold Timer.start
  simp [h]

theorem c4_start_while_ticking_noop_witness :
    (Timer.construct true ⟨5, 0⟩ ⟨0, 0⟩).start ⟨9, 9⟩ =
      Timer.construct true ⟨5, 0⟩ ⟨0, 0⟩ :=
  c4_start_while_ticking_noop (Timer.construct true ⟨5, 0⟩ ⟨0, 0⟩)
    (by decide) ⟨9, 9⟩

/-- C5: `stop()` on a stopwatch that is already stopped leaves the whole
state unchanged, so repeated stops never add a segment twice. -/
theorem c5_stop_while_stopped_noop
    (t : Timer) (h : t.m_ticking = false) (n : value_t) :
    t.stop n = t := by
  unfold Timer.stop
  simp [h]

theorem c5_stop_while_stopped_noop_witness :
    (Timer.construct false ⟨0, 0⟩ ⟨2, 2⟩).stop ⟨9, 9⟩ =
      Timer.construct false ⟨0, 0⟩ ⟨2, 2⟩ :=
  c5_stop_while_stopped_noop (Timer.construct false ⟨0, 0⟩ ⟨2, 2⟩)
    (by decide) ⟨9, 9⟩

/-- C6: `operator()` returns exactly `m_elapsed + time_since_start()` on
every state, and on any stopped state it is `m_elapsed` itself; being a
`const` query modelled as a pure function, it touches no member. -/
theorem c6_total_eq_elapsed_plus_since_start (t : Timer) (n : value_t) :
    t.callOp n = t.m_elapsed + t.time_since_start n ∧
      ({ t with m_ticking := false } : Timer).callOp n = t.m_elapsed := by
  refine ⟨rfl, ?_⟩
  simp [Timer.callOp, Timer.time_since_start]

/-- C7: `time_since_start()` returns `diff(m_starttime, now)` on every
ticking state and 0 on every stopped state — in particular right after
`stop()`, after `reset()`, and on a stopwatch constructed with
`startnow = false`; as a `const` query it mutates nothing. -/
theorem c7_time_since_start_cases
    (t : Timer) (n n2 n0 i0 : value_t) :
    ({ t with m_ticking := true } : Timer).time_since_start n =
        Timer.diff t.m_starttime n ∧
      ({ t with m_ticking := false } : Timer).time_since_start n = 0 ∧
      (t.stop n).time_since_start n2 = 0 ∧
      t.reset.time_since_start n = 0 ∧
      (Timer.construct false n0 i0).time_since_start n = 0 := by
  refine ⟨rfl, rfl, ?_, rfl, rfl⟩
  unfold Timer.stop Timer.time_since_start
  split <;> simp

/-- C8: the `ScopedTimer` constructor performs exactly the bound timer's
`start()`, its destructor exactly the bound timer's `stop()`, and its
`start()`, `stop()`, `reset()` forward directly to the timer's member
functions of the same name. -/
theorem c8_scoped_timer_forwards (t : Timer) (n : value_t) :
    ScopedTimer.construct t n = Timer.start t n ∧
      ScopedTimer.destruct t n = Timer.stop t n ∧
      ScopedTimer.start t n = Timer.start t n ∧
      ScopedTimer.stop t n = Timer.stop t n ∧
      ScopedTimer.reset t = Timer.reset t :=
  ⟨rfl, rfl, rfl, rfl, rfl⟩

/-- C9: only `stop()` increases `m_elapsed` (on a ticking state it adds
exactly the non-negative `diff(now, m_starttime)`), `reset()` sets it to
0, `start()` leaves it unchanged, and the two queries, being `const`
functions modelled as pure functions, modify no member. -/
theorem c9_only_stop_advances_elapsed (t : Timer) (n : value_t) :
    (t.start n).m_elapsed = t.m_elapsed ∧
      t.m_elapsed ≤ (t.stop n).m_elapsed ∧
      (({ t with m_ticking := true } : Timer).stop n).m_elapsed =
        t.m_elapsed + Timer.diff n t.m_starttime ∧
      t.reset.m_elapsed = 0 := by
  refine ⟨?_, ?_, rfl, rfl⟩
  · unfold Timer.start
    split <;> rfl
  · unfold Timer.stop
    split
    · simpa using add_nonneg (le_refl (0:ℚ)) (diff_nonneg n t.m_starttime)
    · exact le_refl _

/-- C10: on the POSIX branch `diff` is symmetric in its two arguments,
so the delta `stop()` commits (it calls `diff(now, m_starttime)`) equals
the value `time_since_start()` reports (it calls
`diff(m_starttime, now)`) for the same open segment. -/
theorem c10_diff_symmetric (a b : value_t) (t : Timer) (n : value_t) :
    Timer.diff a b = Timer.diff b a ∧
      (({ t with m_ticking := true } : Timer).stop n).m_elapsed =
        t.m_elapsed +
          ({ t with m_ticking := true } : Timer).time_since_start n := by
  have hsymm : ∀ x y : value_t, Timer.diff x y = Timer.diff y x := by
    intro x y
    unfold Timer.diff
    rw [← abs_neg]
    congr 1
    push_cast
    ring
  refine ⟨hsymm a b, ?_⟩
  simp [Timer.stop, Timer.time_since_start, hsymm n t.m_starttime]
